import Mathlib

set_option maxHeartbeats 1000000

/-!
Shallow embedding of the quarterly trade time-series analysis and forecasting
code of this repository (`python_processing/enhanced_time_series_analyzer.py`
and `python_processing/predictor.py`).

Modelling conventions:
* Python floats are modelled as exact rationals (`ℚ`).  Where a computation of
  the code can only yield a non-finite float (`nan`/`inf`), that value is
  modelled as `none : Option ℚ`.
* The statsmodels / sklearn fitting-and-forecasting calls (`ARIMA(...).fit()`,
  `SARIMAX(...).fit()`, `ExponentialSmoothing(...).fit()`, `model.predict`) are
  external libraries, not code of this repository; they are modelled as oracle
  parameters returning either a result or the message of the exception they
  raise.  Everything the repository's own code does around those calls
  (length guards, try/except conversion to error dictionaries, weighting,
  flooring, confidence arithmetic) is transcribed from the source.
* `pandas.sort_values` is modelled as a stable sort (for the tiny frames in
  the concrete scenarios pandas' quicksort is insertion sort, which is
  stable); `drop_duplicates(keep=last)` keeps the last occurrence of each
  key; `groupby(...).sum()` yields the ascending-sorted unique keys with the
  sums of their groups, as pandas does.
* Python `int(...)` string parsing is modelled on its core case (an optional
  minus sign followed by decimal digits).
-/

namespace RTA

/-! ## Character-level parsing helpers (model of `str.split('Q')` and `int`) -/

/-- Digit value of a character, `none` if it is not a decimal digit. -/
def digitVal? (c : Char) : Option ℕ :=
  if c.isDigit then some (c.toNat - 48) else none

/-- Parse a non-empty all-digit character list as a natural number
(model of python `int` on a string of digits). -/
def parseNatChars (cs : List Char) : Option ℕ :=
  if cs.isEmpty then none
  else
    cs.foldl
      (fun acc c =>
        match acc, digitVal? c with
        | some n, some d => some (n * 10 + d)
        | _, _ => none)
      (some 0)

/-- Model of python `int(s)`: optional minus sign followed by digits. -/
def parseIntChars (cs : List Char) : Option ℤ :=
  match cs with
  | '-' :: rest => (parseNatChars rest).map (fun n => -(n : ℤ))
  | _ => (parseNatChars cs).map (fun n => (n : ℤ))

/-- Split a character list at every occurrence of `'Q'`
(model of python `s.split('Q')`). -/
def splitQAux : List Char → List Char → List (List Char)
  | [], acc => [acc.reverse]
  | c :: cs, acc =>
    if c = 'Q' then acc.reverse :: splitQAux cs []
    else splitQAux cs (c :: acc)

/-- `s.split('Q')` on a string. -/
def splitQ (s : String) : List (List Char) := splitQAux s.data []

/-! ## Quarter keys and quarter parsing

`_parse_quarter` (both modules) converts a token `"<year>Q<quarter>"` to
`datetime(year, {1:1,2:4,3:7,4:10}[quarter], 1)`.  Any failure — wrong number
of `'Q'`-separated parts, non-integer parts, a quarter outside `{1,2,3,4}`
(`KeyError` in the month table), or a year outside `datetime`'s `1..9999`
range — is caught by the bare `except:` and replaced by the fallback
`datetime(2024, 1, 1)`, which is exactly the date of `2024Q1`.
A quarter date is modelled as the pair `(year, quarter)`, which is in
order-preserving bijection with the first-month datetimes the code uses. -/

/-- Successful parse of a quarter token: `some (year, quarter)` exactly when
`_parse_quarter` does not hit its `except:` clause. -/
def parse_quarter? (s : String) : Option (ℤ × ℤ) :=
  match splitQ s with
  | [ys, qs] =>
    match parseIntChars ys, parseIntChars qs with
    | some y, some q =>
      if 1 ≤ y ∧ y ≤ 9999 ∧ (q = 1 ∨ q = 2 ∨ q = 3 ∨ q = 4) then some (y, q)
      else none
    | _, _ => none
  | _ => none

/-- Whether a token parses as a quarter. -/
def quarter_parses (s : String) : Bool := (parse_quarter? s).isSome

/-- `_parse_quarter`: the parsed `(year, quarter)` key, or the fallback
`(2024, 1)` (i.e. `datetime(2024, 1, 1)`) when parsing fails. -/
def quarter_date (s : String) : ℤ × ℤ := (parse_quarter? s).getD (2024, 1)

/-- Strict chronological order on quarter dates (lexicographic on
`(year, quarter)`, matching the order of the datetimes the code compares). -/
def dlt (a b : ℤ × ℤ) : Bool :=
  decide (a.1 < b.1) || (decide (a.1 = b.1) && decide (a.2 < b.2))

/-! ## Sorting / dedup / groupby infrastructure -/

/-- Insert an element into a list that is sorted ascending by `key`,
after all elements whose key is `≤` its own (stable insertion). -/
def sInsertD {α : Type} (key : α → ℤ × ℤ) (x : α) : List α → List α
  | [] => [x]
  | y :: ys => if dlt (key x) (key y) then x :: y :: ys else y :: sInsertD key x ys

/-- Stable ascending sort by `key` (model of `df.sort_values`). -/
def stableSortD {α : Type} (key : α → ℤ × ℤ) (l : List α) : List α :=
  l.foldl (fun acc x => sInsertD key x acc) []

/-- `df.drop_duplicates(subset=[k], keep='last')`: keep a row only if no
later row has the same key. -/
def keepLastBy {α : Type} (key : α → String) : List α → List α
  | [] => []
  | x :: xs =>
    if xs.any (fun y => key y == key x) then keepLastBy key xs
    else x :: keepLastBy key xs

/-- Insert a key into a strictly-sorted list of unique keys. -/
def insertKeyD (k : ℤ × ℤ) : List (ℤ × ℤ) → List (ℤ × ℤ)
  | [] => [k]
  | x :: xs =>
    if dlt k x then k :: x :: xs
    else if k = x then x :: xs
    else x :: insertKeyD k xs

/-- The ascending-sorted list of the distinct keys occurring in `l`. -/
def sorted_unique_keys (l : List (ℤ × ℤ)) : List (ℤ × ℤ) :=
  l.foldr insertKeyD []

/-- `df.groupby(key)[val].sum()` followed by an ascending sort of the group
keys (pandas sorts group keys ascending by default). -/
def group_sum_by {α : Type} (key : α → ℤ × ℤ) (val : α → ℚ) (l : List α) :
    List ((ℤ × ℤ) × ℚ) :=
  (sorted_unique_keys (l.map key)).map
    (fun k => (k, ((l.filter (fun a => key a == k)).map val).sum))

/-! ## TimeSeriesBuilder: the two series-preparation routines -/

/-- `EnhancedTimeSeriesAnalyzer.prepare_time_series`: attach a parsed
`quarter_date` to each `(quarter-token, value)` record, sort by date,
drop duplicate *tokens* keeping the last, then group by `quarter_date`
and sum each group's values.  Output rows are `(quarter_date, value)`,
sorted ascending by date. -/
def prepare_time_series (data : List (String × ℚ)) : List ((ℤ × ℤ) × ℚ) :=
  let rows := data.map (fun r => (r.1, (quarter_date r.1, r.2)))
  let sortedRows := stableSortD (fun r => r.2.1) rows
  let deduped := keepLastBy (fun r => r.1) sortedRows
  group_sum_by (fun r => r.2.1) (fun r => r.2.2) deduped

/-- `TradePredictor.prepare_time_series_data`: sort records by parsed date and
drop duplicate tokens keeping the last (no summing).  Output rows keep the
original `(quarter-token, value)`. -/
def prepare_time_series_data (data : List (String × ℚ)) : List (String × ℚ) :=
  keepLastBy (fun r => r.1) (stableSortD (fun r => quarter_date r.1) data)

/-! ## Forecast strategies (`arima_forecast`, `sarima_forecast`,
`exponential_smoothing_forecast`)

Each python method returns a dictionary: on success it carries
`forecast_values` (plus diagnostics — confidence intervals, AIC/BIC,
smoothing parameters — elided here because no claim touches them); any
exception raised by the statistical library is caught by the surrounding
`try/except` and converted to `{"error": str(e)}`.  The library call is the
oracle `fit`; `Except.error msg` models a raised exception with message
`msg`.  The embedding is polymorphic in the value type `α` so that runs in
which the library yields non-finite floats can be modelled with
`α := Option ℚ` (`none` = non-finite). -/

/-- Result dictionary of one forecast strategy. -/
inductive StratResult (α : Type) where
  | ok (forecast_values : List α)
  | error (reason : String)
deriving DecidableEq

/-- `"error" not in result`. -/
def StratResult.success {α : Type} : StratResult α → Bool
  | .ok _ => true
  | .error _ => false

/-- `result["forecast_values"]` (empty on an error dictionary, matching
`result.get("forecast_values", [])`). -/
def StratResult.points {α : Type} : StratResult α → List α
  | .ok vs => vs
  | .error _ => []

/-- `arima_forecast`: guard `len(values) < 10`, then fit/forecast via the
library oracle; an exception becomes an error dictionary. -/
def arima_forecast {α : Type} (fit : List α → ℕ → Except String (List α))
    (values : List α) (forecast_periods : ℕ) : StratResult α :=
  if values.length < 10 then
    .error "Insufficient data for ARIMA (minimum 10 observations)"
  else
    match fit values forecast_periods with
    | .ok f => .ok f
    | .error e => .error e

/-- `sarima_forecast`: guard `len(values) < 20`. -/
def sarima_forecast {α : Type} (fit : List α → ℕ → Except String (List α))
    (values : List α) (forecast_periods : ℕ) : StratResult α :=
  if values.length < 20 then
    .error "Insufficient data for SARIMA (minimum 20 observations)"
  else
    match fit values forecast_periods with
    | .ok f => .ok f
    | .error e => .error e

/-- `exponential_smoothing_forecast`: guard `len(values) < 8`. -/
def exponential_smoothing_forecast {α : Type}
    (fit : List α → ℕ → Except String (List α))
    (values : List α) (forecast_periods : ℕ) : StratResult α :=
  if values.length < 8 then
    .error "Insufficient data for Exponential Smoothing"
  else
    match fit values forecast_periods with
    | .ok f => .ok f
    | .error e => .error e

/-! ## EnsembleCombiner (`ensemble_forecast`) -/

/-- One step of the ensemble loop: build the parallel `forecasts` / `weights`
lists by appending `(result["forecast_values"][i], weight)` for each
non-error strategy result (ARIMA 0.3, SARIMA 0.4, smoothing 0.3), then
`sum(f*w for f,w in zip(forecasts, weights)) / sum(weights)` if any forecast
was collected, else `0.0`. -/
def ensemble_step (ar sa ex : StratResult ℚ) (i : ℕ) : ℚ :=
  let fw1 : List ℚ × List ℚ :=
    match ar with
    | .ok vs => ([vs.getD i 0], [(0.3 : ℚ)])
    | .error _ => ([], [])
  let fw2 : List ℚ × List ℚ :=
    match sa with
    | .ok vs => (fw1.1 ++ [vs.getD i 0], fw1.2 ++ [(0.4 : ℚ)])
    | .error _ => fw1
  let fw3 : List ℚ × List ℚ :=
    match ex with
    | .ok vs => (fw2.1 ++ [vs.getD i 0], fw2.2 ++ [(0.3 : ℚ)])
    | .error _ => fw2
  if fw3.1.isEmpty then 0
  else ((fw3.1.zip fw3.2).map (fun p => p.1 * p.2)).sum / fw3.2.sum

/-- Output of `ensemble_forecast`: the per-step ensemble values and the
`model_contributions` flags. -/
structure EnsembleResult where
  ensemble_forecasts : List ℚ
  arima_contributed : Bool
  sarima_contributed : Bool
  exp_contributed : Bool
deriving DecidableEq

/-- `ensemble_forecast`: run the three strategies on the prepared series and
combine them per step. -/
def ensemble_forecast (fitA fitS fitE : List ℚ → ℕ → Except String (List ℚ))
    (values : List ℚ) (forecast_periods : ℕ) : EnsembleResult :=
  let ar := arima_forecast fitA values forecast_periods
  let sa := sarima_forecast fitS values forecast_periods
  let ex := exponential_smoothing_forecast fitE values forecast_periods
  { ensemble_forecasts := (List.range forecast_periods).map (ensemble_step ar sa ex)
    arima_contributed := ar.success
    sarima_contributed := sa.success
    exp_contributed := ex.success }

/-- Per-step list of `(point, weight)` pairs of the strategies that
succeeded.  Modelled from the spec's description of the EnsembleCombiner
("weight and sum point estimates from strategies with success=true at that
step"), used to compare the code's loop against the spec's weighted mean. -/
def step_successes (ar sa ex : StratResult ℚ) (i : ℕ) : List (ℚ × ℚ) :=
  (match ar with | .ok vs => [(vs.getD i 0, (0.3 : ℚ))] | .error _ => []) ++
    (match sa with | .ok vs => [(vs.getD i 0, (0.4 : ℚ))] | .error _ => []) ++
    (match ex with | .ok vs => [(vs.getD i 0, (0.3 : ℚ))] | .error _ => [])

/-! ## `_get_next_quarter` (predictor) -/

/-- The arithmetic core of `_get_next_quarter`:
`total = year*4 + quarter - 1 + steps`, result `(total // 4, total % 4 + 1)`
with python floor division / nonnegative remainder (`Int.ediv`/`Int.emod`
agree with python `//` and `%` for the positive divisor 4). -/
def get_next_quarter_core (year quarter : ℤ) (steps : ℕ) : ℤ × ℤ :=
  let total : ℤ := year * 4 + quarter - 1 + (steps : ℤ)
  (total.ediv 4, total.emod 4 + 1)

/-- Advancing a `(year, quarter)` pair by one step. -/
def quarter_step_one (p : ℤ × ℤ) : ℤ × ℤ := get_next_quarter_core p.1 p.2 1

/-- `_get_next_quarter` on quarter-token strings: parse `"<year>Q<q>"`
(plain `split('Q')` + `int`, no range checks here), do the step arithmetic,
format; on a parse failure fall back to `f"2025Q{steps}"`. -/
def get_next_quarter (current_quarter : String) (steps : ℕ) : String :=
  match splitQ current_quarter with
  | [ys, qs] =>
    match parseIntChars ys, parseIntChars qs with
    | some year, some quarter =>
      let p := get_next_quarter_core year quarter steps
      toString p.1 ++ "Q" ++ toString p.2
    | _, _ => "2025Q" ++ toString steps
  | _ => "2025Q" ++ toString steps

/-! ## BaselineEstimator (`_generate_baseline_predictions`) and the
recursive model forecaster (`_generate_time_series_predictions`) -/

/-- One emitted prediction record: `{quarter, predicted_<type>, confidence}`. -/
structure Pred where
  quarter : String
  value : ℚ
  confidence : ℤ
deriving DecidableEq

/-- Default record used only to state `getD`-indexed facts. -/
def predDefault : Pred := { quarter := "", value := 0, confidence := 0 }

/-- `sorted(quarters)[-1]`: the lexicographically largest quarter token
(python and Lean both compare strings by code point). -/
def str_max (l : List String) : String :=
  l.foldl (fun a b => if a < b then b else a) ""

/-- `_generate_baseline_predictions`: with no historical records, a flat 0
forecast with confidence 50 advancing from the fixed epoch `2024Q4`;
otherwise a flat forecast at the historical mean of *all* records
(duplicates included) with confidence 60, advancing from the
lexicographically last quarter token. -/
def generate_baseline_predictions (n_quarters : ℕ)
    (records : List (String × ℚ)) : List Pred :=
  match records with
  | [] =>
    (List.range n_quarters).map (fun j =>
      { quarter := get_next_quarter "2024Q4" (j + 1), value := 0, confidence := 50 })
  | r :: rs =>
    let avg : ℚ := ((r :: rs).map Prod.snd).sum / ((r :: rs).length : ℚ)
    let last_quarter := str_max ((r :: rs).map Prod.fst)
    (List.range n_quarters).map (fun j =>
      { quarter := get_next_quarter last_quarter (j + 1), value := avg, confidence := 60 })

/-- The mutable cursor row of the recursive forecasting loop: the quarter
token and series value are updated each iteration; the remaining feature
columns (`feats`, of abstract type `F`) are — as the code itself notes —
left untouched ("simplified" update). -/
structure CursorRow (F : Type) where
  quarter : String
  value : ℚ
  feats : F

/-- One iteration of `_generate_time_series_predictions` at 1-indexed step
`i`: predict from the (stale) feature columns, floor at 0 on success, fall
back to the cursor's current value on an exception; advance the quarter;
confidence `max(50, 85 - 5*i)`; update quarter and value in the cursor. -/
def gtsp_step {F : Type} (model : F → Except String ℚ) (cur : CursorRow F)
    (i : ℕ) : Pred × CursorRow F :=
  let pred_value : ℚ :=
    match model cur.feats with
    | .ok v => max 0 v
    | .error _ => cur.value
  let next_quarter := get_next_quarter cur.quarter 1
  let confidence : ℤ := max 50 (85 - 5 * (i : ℤ))
  ({ quarter := next_quarter, value := pred_value, confidence := confidence },
   { quarter := next_quarter, value := pred_value, feats := cur.feats })

/-- The loop of `_generate_time_series_predictions`: `k` remaining steps,
`i` the 1-indexed number of the next step. -/
def gtsp_go {F : Type} (model : F → Except String ℚ) :
    CursorRow F → ℕ → ℕ → List Pred
  | _, 0, _ => []
  | cur, k + 1, i =>
    let pc := gtsp_step model cur i
    pc.1 :: gtsp_go model pc.2 k (i + 1)

/-- `_generate_time_series_predictions`: with no trained model, fall back to
the baseline; otherwise run the recursive loop from the last historical
feature row. -/
def generate_time_series_predictions {F : Type}
    (model : Option (F → Except String ℚ)) (records : List (String × ℚ))
    (lastRow : CursorRow F) (n_quarters : ℕ) : List Pred :=
  match model with
  | none => generate_baseline_predictions n_quarters records
  | some m => gtsp_go m lastRow n_quarters 1

/-! ## `predict_trade_balance` -/

/-- One emitted balance prediction record. -/
structure BalPred where
  quarter : String
  predicted_balance : ℚ
  predicted_export : ℚ
  predicted_import : ℚ
  balance_type : String
  confidence : ℤ
deriving DecidableEq

/-- Default balance record used only to state `getD`-indexed facts. -/
def balDefault : BalPred :=
  { quarter := "", predicted_balance := 0, predicted_export := 0,
    predicted_import := 0, balance_type := "", confidence := 0 }

/-- The combination loop of `predict_trade_balance`: for each index up to the
shorter prediction list, balance = export − import (no flooring), labelled
surplus when `balance >= 0`, confidence the min of the two confidences. -/
def predict_trade_balance (export_preds import_preds : List Pred) :
    List BalPred :=
  (List.range (min export_preds.length import_preds.length)).map (fun i =>
    let e := export_preds.getD i predDefault
    let im := import_preds.getD i predDefault
    let balance := e.value - im.value
    { quarter := e.quarter
      predicted_balance := balance
      predicted_export := e.value
      predicted_import := im.value
      balance_type := if 0 ≤ balance then "surplus" else "deficit"
      confidence := min e.confidence im.confidence })

/-! ## StatisticalProfiler: basic statistics, trend, volatility -/

/-- The basic-statistics fields a claim touches (`count`, `mean`, `min`,
`max`; the remaining fields of `statistical_analysis` — quartiles, skewness,
… — are not needed by any claim).  `numpy` reductions raise on an empty
array, hence `Option`. -/
structure BasicStats where
  count : ℕ
  mean : ℚ
  min : ℚ
  max : ℚ
deriving DecidableEq

/-- `count/mean/min/max` of `basic_statistics`, with no clipping anywhere. -/
def basic_statistics : List ℚ → Option BasicStats
  | [] => none
  | v :: vs =>
    some { count := vs.length + 1
           mean := ((v :: vs).sum) / (((v :: vs).length : ℕ) : ℚ)
           min := vs.foldl Min.min v
           max := vs.foldl Max.max v }

/-- The OLS slope `stats.linregress(x, y)` computes for
`x = 0, 1, …, n-1`: `(n·Σxy − Σx·Σy) / (n·Σx² − (Σx)²)`. -/
def ols_slope (ys : List ℚ) : ℚ :=
  let n : ℚ := (ys.length : ℕ)
  let xs : List ℚ := (List.range ys.length).map (fun i => ((i : ℕ) : ℚ))
  let sx := xs.sum
  let sy := ys.sum
  let sxy := ((xs.zip ys).map (fun p => p.1 * p.2)).sum
  let sxx := (xs.map (fun x => x * x)).sum
  (n * sxy - sx * sy) / (n * sxx - sx * sx)

/-- Result of `_analyze_trend`; the `p_value` of the slope is produced by
scipy's t-distribution machinery and is taken as an oracle input, the fields
`r_squared`/`trend_strength` are elided (no claim touches them). -/
inductive TrendResult where
  | ok (slope : ℚ) (trend_direction : String) (significant : Bool)
  | error (msg : String)
deriving DecidableEq

/-- `_analyze_trend`: with more than one point, report the OLS slope,
direction `"increasing"` iff `slope > 0` else `"decreasing"`, and
`significant = (p_value < 0.05)`; otherwise the insufficient-data error. -/
def analyze_trend (p_value : ℚ) (ys : List ℚ) : TrendResult :=
  if 1 < ys.length then
    TrendResult.ok (ols_slope ys)
      (if 0 < ols_slope ys then "increasing" else "decreasing")
      (decide (p_value < (0.05 : ℚ)))
  else
    TrendResult.error "Insufficient data for trend analysis"

/-- The percent-change series `np.diff(values) / values[:-1] * 100` of
`_analyze_volatility`: one entry for every consecutive pair, with *no*
skipping; a zero predecessor makes numpy produce a non-finite value
(`inf`/`nan`), modelled as `none`. -/
def volatility_returns : List ℚ → List (Option ℚ)
  | [] => []
  | [_] => []
  | a :: b :: rest =>
    (if a = 0 then none else some ((b - a) / a * 100)) ::
      volatility_returns (b :: rest)

/-- Modelled from the spec: the percent-change series as §4.2/C9 describe it,
"skipping pairs with zero predecessor".  Used only to compare the code's
series against the spec's words. -/
def spec_volatility_returns : List ℚ → List ℚ
  | [] => []
  | [_] => []
  | a :: b :: rest =>
    (if a = 0 then [] else [(b - a) / a * 100]) ++
      spec_volatility_returns (b :: rest)

/-- Mean of a rational list (`np.mean`). -/
def pmean (l : List ℚ) : ℚ := l.sum / ((l.length : ℕ) : ℚ)

/-- The statistics `_analyze_volatility` reports over an all-finite returns
series.  `variance` is the square of the reported `np.std` (ℚ has no square
root; the monotone square root itself carries no extra information). -/
structure VolStats where
  variance : ℚ
  mean_return : ℚ
  max_return : ℚ
  min_return : ℚ
  positive_returns : ℕ
  negative_returns : ℕ
deriving DecidableEq

/-- `_analyze_volatility`: on fewer than 2 points the empty-array numpy
reduction raises and the `except` clause reports an error; otherwise the
returns series is computed with no skipping.  When every entry is finite the
six statistics are reported over it; when some entry is non-finite the
reported floats are nan/inf, which the embedding does not model further
(`none`). -/
def analyze_volatility (values : List ℚ) :
    Except String (List (Option ℚ) × Option VolStats) :=
  match volatility_returns values with
  | [] => Except.error "zero-size array to reduction operation"
  | o :: os =>
    match (o :: os).mapM id with
    | some [] => Except.ok (o :: os, none)
    | some (r :: rest) =>
      Except.ok (o :: os,
        some { variance := pmean ((r :: rest).map (fun x => (x - pmean (r :: rest)) ^ 2))
               mean_return := pmean (r :: rest)
               max_return := rest.foldl Max.max r
               min_return := rest.foldl Min.min r
               positive_returns := ((r :: rest).filter (fun x => decide (0 < x))).length
               negative_returns := ((r :: rest).filter (fun x => decide (x < 0))).length })
    | none => Except.ok (o :: os, none)

/-! ## Concrete oracles used in closed statements -/

/-- A fit oracle that always succeeds with a flat forecast of 1s. -/
def trivialFit : List ℚ → ℕ → Except String (List ℚ) :=
  fun _ n => Except.ok (List.replicate n 1)

/-- A fit oracle whose forecast values are all non-finite floats. -/
def nanFit : List (Option ℚ) → ℕ → Except String (List (Option ℚ)) :=
  fun _ n => Except.ok (List.replicate n none)

/-- A fit oracle that raises (models non-convergence). -/
def failFit {α : Type} : List α → ℕ → Except String (List α) :=
  fun _ _ => Except.error "convergence failure"

/-! # Lemmas about the ordering and the sorting infrastructure -/

lemma dlt_irrefl (a : ℤ × ℤ) : dlt a a = false := by
  simp [dlt]

lemma dlt_asymm {a b : ℤ × ℤ} (h : dlt a b = true) : dlt b a = false := by
  obtain ⟨a1, a2⟩ := a
  obtain ⟨b1, b2⟩ := b
  simp [dlt] at h ⊢
  omega

lemma dlt_total {a b : ℤ × ℤ} (h1 : dlt a b = false) (h2 : a ≠ b) :
    dlt b a = true := by
  obtain ⟨a1, a2⟩ := a
  obtain ⟨b1, b2⟩ := b
  simp [dlt, Prod.ext_iff] at h1 h2 ⊢
  omega

lemma dlt_trans {a b c : ℤ × ℤ} (h1 : dlt a b = true) (h2 : dlt b c = true) :
    dlt a c = true := by
  obtain ⟨a1, a2⟩ := a
  obtain ⟨b1, b2⟩ := b
  obtain ⟨c1, c2⟩ := c
  simp [dlt] at h1 h2 ⊢
  omega

lemma dlt_false_trans {a b c : ℤ × ℤ} (h1 : dlt b a = false)
    (h2 : dlt c b = false) : dlt c a = false := by
  obtain ⟨a1, a2⟩ := a
  obtain ⟨b1, b2⟩ := b
  obtain ⟨c1, c2⟩ := c
  simp [dlt] at h1 h2 ⊢
  omega

section SortLemmas

variable {α : Type} (key : α → ℤ × ℤ)

lemma mem_sInsertD {x z : α} : ∀ {l : List α},
    z ∈ sInsertD key x l → z = x ∨ z ∈ l := by
  intro l
  induction l with
  | nil => simp [sInsertD]
  | cons y ys ih =>
    simp only [sInsertD]
    by_cases h : dlt (key x) (key y) = true
    · rw [if_pos h]
      intro hz
      rcases List.mem_cons.mp hz with rfl | hz
      · exact Or.inl rfl
      · exact Or.inr hz
    · rw [if_neg h]
      intro hz
      rcases List.mem_cons.mp hz with rfl | hz
      · exact Or.inr (List.mem_cons_self _ _)
      · rcases ih hz with h1 | h1
        · exact Or.inl h1
        · exact Or.inr (List.mem_cons_of_mem _ h1)

lemma pairwise_sInsertD (x : α) : ∀ {l : List α},
    l.Pairwise (fun a b => dlt (key b) (key a) = false) →
    (sInsertD key x l).Pairwise (fun a b => dlt (key b) (key a) = false) := by
  intro l
  induction l with
  | nil => simp [sInsertD]
  | cons y ys ih =>
    intro hp
    rw [List.pairwise_cons] at hp
    obtain ⟨hy, hys⟩ := hp
    simp only [sInsertD]
    by_cases h : dlt (key x) (key y) = true
    · rw [if_pos h, List.pairwise_cons]
      constructor
      · intro z hz
        rcases hz with _ | hz
        · exact dlt_asymm h
        · rename_i hz
          -- key x < key y ≤ key z, so ¬ key z < key x
          have hyz := hy _ hz
          by_contra hc
          rw [Bool.not_eq_false] at hc
          have := dlt_trans hc h
          rw [hyz] at this
          exact Bool.false_ne_true this
      · exact List.pairwise_cons.mpr ⟨hy, hys⟩
    · rw [if_neg h, List.pairwise_cons]
      constructor
      · intro z hz
        rcases mem_sInsertD key hz with rfl | hz
        · rw [Bool.not_eq_true] at h
          exact h
        · exact hy _ hz
      · exact ih hys

lemma pairwise_foldl_sInsertD : ∀ (l acc : List α),
    acc.Pairwise (fun a b => dlt (key b) (key a) = false) →
    (l.foldl (fun acc x => sInsertD key x acc) acc).Pairwise
      (fun a b => dlt (key b) (key a) = false) := by
  intro l
  induction l with
  | nil => intro acc h; simpa using h
  | cons x xs ih =>
    intro acc h
    exact ih _ (pairwise_sInsertD key x h)

/-- `stableSortD` sorts ascending by key (non-strict order). -/
lemma stableSortD_pairwise (l : List α) :
    (stableSortD key l).Pairwise (fun a b => dlt (key b) (key a) = false) :=
  pairwise_foldl_sInsertD key l [] (by simp)

end SortLemmas

section KeepLastLemmas

variable {α : Type} (key : α → String)

lemma keepLastBy_sublist : ∀ l : List α, List.Sublist (keepLastBy key l) l := by
  intro l
  induction l with
  | nil => simp [keepLastBy]
  | cons x xs ih =>
    simp only [keepLastBy]
    by_cases h : xs.any (fun y => key y == key x) = true
    · rw [if_pos h]
      exact ih.cons x
    · rw [if_neg h]
      exact ih.cons₂ x

lemma mem_keepLastBy {z : α} : ∀ {l : List α}, z ∈ keepLastBy key l → z ∈ l :=
  fun h => (keepLastBy_sublist key _).subset h

/-- The keys of a `keepLastBy` output are pairwise distinct. -/
lemma keepLastBy_keys_nodup : ∀ l : List α,
    ((keepLastBy key l).map key).Nodup := by
  intro l
  induction l with
  | nil => simp [keepLastBy]
  | cons x xs ih =>
    simp only [keepLastBy]
    by_cases h : xs.any (fun y => key y == key x) = true
    · rw [if_pos h]
      exact ih
    · rw [if_neg h]
      simp only [List.map_cons, List.nodup_cons]
      refine ⟨?_, ih⟩
      intro hmem
      rw [List.mem_map] at hmem
      obtain ⟨z, hz, hkz⟩ := hmem
      have hz' : z ∈ xs := mem_keepLastBy key hz
      rw [Bool.not_eq_true] at h
      rw [List.any_eq_false] at h
      have := h z hz'
      simp at this
      exact this hkz

end KeepLastLemmas

section GroupSumLemmas

lemma mem_insertKeyD {k z : ℤ × ℤ} : ∀ {l : List (ℤ × ℤ)},
    z ∈ insertKeyD k l → z = k ∨ z ∈ l := by
  intro l
  induction l with
  | nil => simp [insertKeyD]
  | cons x xs ih =>
    simp only [insertKeyD]
    by_cases h1 : dlt k x = true
    · rw [if_pos h1]
      intro hz
      rcases List.mem_cons.mp hz with rfl | hz
      · exact Or.inl rfl
      · exact Or.inr hz
    · rw [if_neg h1]
      by_cases h2 : k = x
      · rw [if_pos h2]
        intro hz
        exact Or.inr hz
      · rw [if_neg h2]
        intro hz
        rcases List.mem_cons.mp hz with rfl | hz
        · exact Or.inr (List.mem_cons_self _ _)
        · rcases ih hz with h | h
          · exact Or.inl h
          · exact Or.inr (List.mem_cons_of_mem _ h)

lemma pairwise_insertKeyD (k : ℤ × ℤ) : ∀ {l : List (ℤ × ℤ)},
    l.Pairwise (fun a b => dlt a b = true) →
    (insertKeyD k l).Pairwise (fun a b => dlt a b = true) := by
  intro l
  induction l with
  | nil => simp [insertKeyD]
  | cons x xs ih =>
    intro hp
    rw [List.pairwise_cons] at hp
    obtain ⟨hx, hxs⟩ := hp
    simp only [insertKeyD]
    by_cases h1 : dlt k x = true
    · rw [if_pos h1, List.pairwise_cons]
      refine ⟨?_, List.pairwise_cons.mpr ⟨hx, hxs⟩⟩
      intro z hz
      rcases hz with _ | hz
      · exact h1
      · rename_i hz
        exact dlt_trans h1 (hx _ hz)
    · rw [if_neg h1]
      by_cases h2 : k = x
      · rw [if_pos h2, List.pairwise_cons]
        exact ⟨hx, hxs⟩
      · rw [if_neg h2, List.pairwise_cons]
        refine ⟨?_, ih hxs⟩
        intro z hz
        rcases mem_insertKeyD hz with rfl | hz
        · exact dlt_total (Bool.not_eq_true _ ▸ (by simpa using h1)) h2
        · exact hx _ hz

/-- The unique-key list is strictly ascending. -/
lemma sorted_unique_keys_pairwise : ∀ l : List (ℤ × ℤ),
    (sorted_unique_keys l).Pairwise (fun a b => dlt a b = true) := by
  intro l
  induction l with
  | nil => simp [sorted_unique_keys]
  | cons x xs ih =>
    simpa [sorted_unique_keys] using
      pairwise_insertKeyD x (by simpa [sorted_unique_keys] using ih)

/-- The keys of a `group_sum_by` result are strictly ascending … -/
lemma group_sum_by_keys_pairwise {α : Type} (key : α → ℤ × ℤ) (val : α → ℚ)
    (l : List α) :
    ((group_sum_by key val l).map Prod.fst).Pairwise
      (fun a b => dlt a b = true) := by
  have : (group_sum_by key val l).map Prod.fst
      = sorted_unique_keys (l.map key) := by
    simp only [group_sum_by, List.map_map]
    simp [Function.comp_def]
  rw [this]
  exact sorted_unique_keys_pairwise _

/-- … hence pairwise distinct. -/
lemma group_sum_by_keys_nodup {α : Type} (key : α → ℤ × ℤ) (val : α → ℚ)
    (l : List α) : ((group_sum_by key val l).map Prod.fst).Nodup := by
  refine (group_sum_by_keys_pairwise key val l).imp ?_
  intro a b hab
  intro hEq
  rw [hEq, dlt_irrefl] at hab
  exact Bool.false_ne_true hab

end GroupSumLemmas

/-! # Lemmas about quarter parsing -/

lemma quarter_date_of_not_parses {s : String} (h : quarter_parses s = false) :
    quarter_date s = (2024, 1) := by
  unfold quarter_parses at h
  unfold quarter_date
  cases hpq : parse_quarter? s with
  | none => rfl
  | some yq => rw [hpq] at h; simp at h

lemma quarter_date_of_parses {s : String} {yq : ℤ × ℤ}
    (h : parse_quarter? s = some yq) : quarter_date s = yq := by
  unfold quarter_date
  rw [h]
  rfl

/-! # Lemmas about the predictor loops -/

lemma gtsp_go_length {F : Type} (model : F → Except String ℚ) :
    ∀ (k : ℕ) (cur : CursorRow F) (i : ℕ), (gtsp_go model cur k i).length = k
  | 0, _, _ => rfl
  | k + 1, cur, i => by
    simp [gtsp_go, gtsp_go_length model k]

lemma gtsp_go_conf {F : Type} (model : F → Except String ℚ) :
    ∀ (k : ℕ) (cur : CursorRow F) (i j : ℕ), j < k →
      ((gtsp_go model cur k i).getD j predDefault).confidence
        = max 50 (85 - 5 * ((i : ℤ) + (j : ℤ)))
  | 0, _, _, _, h => absurd h (Nat.not_lt_zero _)
  | k + 1, cur, i, 0, _ => by
    simp [gtsp_go, gtsp_step]
  | k + 1, cur, i, j + 1, h => by
    have ih := gtsp_go_conf model k (gtsp_step model cur i).2 (i + 1) j
      (Nat.lt_of_succ_lt_succ h)
    simp only [gtsp_go, List.getD_cons_succ]
    rw [ih]
    push_cast
    ring_nf

lemma gtsp_step_value_nonneg {F : Type} (model : F → Except String ℚ)
    (cur : CursorRow F) (i : ℕ) (h : 0 ≤ cur.value) :
    0 ≤ (gtsp_step model cur i).1.value ∧
      (gtsp_step model cur i).2.value = (gtsp_step model cur i).1.value := by
  constructor
  · simp only [gtsp_step]
    cases model cur.feats with
    | ok v => exact le_max_left 0 v
    | error e => exact h
  · simp [gtsp_step]

/-- Every prediction emitted by the recursive loop is nonnegative, provided
the last historical value was (export/import observations are `≥ 0` by the
data model). -/
lemma gtsp_go_nonneg {F : Type} (model : F → Except String ℚ) :
    ∀ (k : ℕ) (cur : CursorRow F) (i : ℕ), 0 ≤ cur.value →
      ∀ p ∈ gtsp_go model cur k i, 0 ≤ p.value
  | 0, _, _, _, p, hp => absurd hp (by simp [gtsp_go])
  | k + 1, cur, i, h, p, hp => by
    obtain ⟨h1, h2⟩ := gtsp_step_value_nonneg model cur i h
    rcases List.mem_cons.mp hp with rfl | hp
    · exact h1
    · exact gtsp_go_nonneg model k _ (i + 1) (h2 ▸ h1) p hp

lemma generate_baseline_length (n : ℕ) (records : List (String × ℚ)) :
    (generate_baseline_predictions n records).length = n := by
  cases records <;> simp [generate_baseline_predictions]

lemma baseline_value_nonempty (n : ℕ) (r : String × ℚ)
    (rs : List (String × ℚ)) :
    (generate_baseline_predictions n (r :: rs)).map Pred.value
      = List.replicate n (((r :: rs).map Prod.snd).sum / (((r :: rs).length : ℕ) : ℚ)) := by
  simp only [generate_baseline_predictions, List.map_map]
  rw [List.eq_replicate_iff]
  constructor
  · simp
  · intro b hb
    simp only [List.mem_map, Function.comp] at hb
    obtain ⟨j, _, hj⟩ := hb
    exact hj.symm

lemma baseline_conf_nonempty (n : ℕ) (r : String × ℚ)
    (rs : List (String × ℚ)) :
    ∀ p ∈ generate_baseline_predictions n (r :: rs), p.confidence = 60 := by
  intro p hp
  simp only [generate_baseline_predictions, List.mem_map] at hp
  obtain ⟨j, _, hj⟩ := hp
  rw [← hj]

lemma baseline_conf_replicate (n : ℕ) (r : String × ℚ)
    (rs : List (String × ℚ)) :
    (generate_baseline_predictions n (r :: rs)).map Pred.confidence
      = List.replicate n 60 := by
  rw [List.eq_replicate_iff]
  refine ⟨by simp [generate_baseline_length], ?_⟩
  intro b hb
  rw [List.mem_map] at hb
  obtain ⟨p, hp, hb⟩ := hb
  rw [← hb, baseline_conf_nonempty n r rs p hp]

/-! # Lemmas about the strategy guards and the ensemble -/

lemma strategies_all_fail (fitA fitS fitE : List ℚ → ℕ → Except String (List ℚ))
    (values : List ℚ) (n : ℕ) (h : values.length < 8) :
    arima_forecast fitA values n
        = .error "Insufficient data for ARIMA (minimum 10 observations)"
      ∧ sarima_forecast fitS values n
        = .error "Insufficient data for SARIMA (minimum 20 observations)"
      ∧ exponential_smoothing_forecast fitE values n
        = .error "Insufficient data for Exponential Smoothing" := by
  refine ⟨?_, ?_, ?_⟩
  · rw [arima_forecast, if_pos (by omega)]
  · rw [sarima_forecast, if_pos (by omega)]
  · rw [exponential_smoothing_forecast, if_pos (by omega)]

lemma ensemble_step_all_error (a s e : String) (i : ℕ) :
    ensemble_step (.error a) (.error s) (.error e) i = 0 := rfl

/-! # Lemmas about min/max folds (basic statistics) -/

lemma foldl_min_le_init : ∀ (vs : List ℚ) (v : ℚ), vs.foldl Min.min v ≤ v
  | [], v => le_refl v
  | a :: vs, v =>
    le_trans (foldl_min_le_init vs (min v a)) (min_le_left v a)

lemma init_le_foldl_max : ∀ (vs : List ℚ) (v : ℚ), v ≤ vs.foldl Max.max v
  | [], v => le_refl v
  | a :: vs, v =>
    le_trans (le_max_left v a) (init_le_foldl_max vs (max v a))

lemma foldl_min_le_mem : ∀ (vs : List ℚ) (v x : ℚ), x ∈ v :: vs →
    vs.foldl Min.min v ≤ x
  | [], v, x, hx => by
    rcases List.mem_cons.mp hx with rfl | hx
    · exact le_refl x
    · exact absurd hx (List.not_mem_nil x)
  | a :: vs, v, x, hx => by
    rcases List.mem_cons.mp hx with rfl | hx
    · exact foldl_min_le_init (a :: vs) _
    · rcases List.mem_cons.mp hx with rfl | hx
      · exact le_trans (foldl_min_le_init vs (min v x)) (min_le_right v x)
      · exact foldl_min_le_mem vs (min v a) x (List.mem_cons_of_mem _ hx)

lemma mem_le_foldl_max : ∀ (vs : List ℚ) (v x : ℚ), x ∈ v :: vs →
    x ≤ vs.foldl Max.max v
  | [], v, x, hx => by
    rcases List.mem_cons.mp hx with rfl | hx
    · exact le_refl x
    · exact absurd hx (List.not_mem_nil x)
  | a :: vs, v, x, hx => by
    rcases List.mem_cons.mp hx with rfl | hx
    · exact init_le_foldl_max (a :: vs) x
    · rcases List.mem_cons.mp hx with rfl | hx
      · exact le_trans (le_max_right v x) (init_le_foldl_max vs (max v x))
      · exact mem_le_foldl_max vs (max v a) x (List.mem_cons_of_mem _ hx)

/-! # Lemmas about the volatility returns series -/

lemma volatility_returns_length : ∀ values : List ℚ,
    (volatility_returns values).length = values.length - 1
  | [] => rfl
  | [_] => rfl
  | a :: b :: rest => by
    have := volatility_returns_length (b :: rest)
    simp only [volatility_returns, List.length_cons] at this ⊢
    omega

lemma volatility_returns_getD : ∀ (values : List ℚ) (i : ℕ),
    i + 1 < values.length →
    (volatility_returns values).getD i (some 0)
      = (if values.getD i 0 = 0 then none
         else some ((values.getD (i + 1) 0 - values.getD i 0) / values.getD i 0 * 100))
  | [], i, h => by simp at h
  | [_], i, h => by simp at h
  | a :: b :: rest, 0, _ => by
    simp [volatility_returns]
  | a :: b :: rest, i + 1, h => by
    have ih := volatility_returns_getD (b :: rest) i (by
      simp only [List.length_cons] at h ⊢
      omega)
    simpa [volatility_returns] using ih

lemma volatility_returns_all_finite : ∀ values : List ℚ,
    (∀ i, i + 1 < values.length → values.getD i 0 ≠ 0) →
    volatility_returns values = (spec_volatility_returns values).map some
  | [], _ => rfl
  | [_], _ => rfl
  | a :: b :: rest, h => by
    have ha : a ≠ 0 := by
      have := h 0 (by simp)
      simpa using this
    have ih := volatility_returns_all_finite (b :: rest) (fun i hi => by
      have := h (i + 1) (by
        simp only [List.length_cons] at hi ⊢
        omega)
      simpa using this)
    simp [volatility_returns, spec_volatility_returns, ha, ih]

lemma mapM_id_map_some : ∀ l : List ℚ, (l.map some).mapM id = some l
  | [] => rfl
  | x :: xs => by
    simp only [List.map_cons, List.mapM_cons, mapM_id_map_some xs, id]
    rfl

lemma getD_map_range {β : Type} (f : ℕ → β) (n j : ℕ) (d : β) (h : j < n) :
    ((List.range n).map f).getD j d = f j := by
  have hlen : j < ((List.range n).map f).length := by simpa using h
  rw [List.getD_eq_getElem _ _ hlen, List.getElem_map, List.getElem_range]

/-! # Lemmas about `_get_next_quarter` -/

lemma emod4_facts (t : ℤ) :
    0 ≤ t.emod 4 ∧ t.emod 4 < 4 ∧ 4 * t.ediv 4 + t.emod 4 = t :=
  ⟨Int.emod_nonneg t (by norm_num), Int.emod_lt_of_pos t (by norm_num),
   Int.ediv_add_emod t 4⟩

lemma get_next_quarter_core_charac (y q : ℤ) (steps : ℕ) :
    1 ≤ (get_next_quarter_core y q steps).2
    ∧ (get_next_quarter_core y q steps).2 ≤ 4
    ∧ (get_next_quarter_core y q steps).1 * 4 + ((get_next_quarter_core y q steps).2 - 1)
        = y * 4 + (q - 1) + (steps : ℤ) := by
  unfold get_next_quarter_core
  dsimp only
  obtain ⟨hm0, hm4, hdm⟩ := emod4_facts (y * 4 + q - 1 + (steps : ℤ))
  refine ⟨?_, ?_, ?_⟩ <;> omega

lemma core_congr {y1 q1 y2 q2 : ℤ} {s1 s2 : ℕ}
    (h : y1 * 4 + q1 - 1 + (s1 : ℤ) = y2 * 4 + q2 - 1 + (s2 : ℤ)) :
    get_next_quarter_core y1 q1 s1 = get_next_quarter_core y2 q2 s2 := by
  unfold get_next_quarter_core
  dsimp only
  rw [h]

lemma quarter_step_iterate : ∀ (n : ℕ) (y q : ℤ), 1 ≤ q → q ≤ 4 →
    quarter_step_one^[n] (y, q) = get_next_quarter_core y q n
  | 0, y, q, h1, h4 => by
    simp only [Function.iterate_zero, id_eq]
    obtain ⟨hm0, hm4, hdm⟩ := emod4_facts (y * 4 + q - 1)
    unfold get_next_quarter_core
    dsimp only
    rw [Prod.mk.injEq]
    push_cast
    simp only [add_zero]
    constructor <;> omega
  | n + 1, y, q, h1, h4 => by
    rw [Function.iterate_succ_apply]
    obtain ⟨hq1, hq4, hchar⟩ := get_next_quarter_core_charac y q 1
    have hstep : quarter_step_one (y, q) = get_next_quarter_core y q 1 := rfl
    have heta : quarter_step_one (y, q)
        = ((quarter_step_one (y, q)).1, (quarter_step_one (y, q)).2) := rfl
    rw [heta, quarter_step_iterate n _ _ (hstep ▸ hq1) (hstep ▸ hq4), hstep]
    refine core_congr ?_
    push_cast at hchar ⊢
    omega

/-! # Claim theorems -/

/-- C1 (corrected): at a horizon step where zero strategies succeed — in
particular for any series of fewer than 8 observations, where every strategy
fails its length guard — `ensemble_forecast` emits the value `0.0`, *not* the
BaselineEstimator value, and records `model_contributions` as all-`false`;
the BaselineEstimator (`_generate_baseline_predictions`), which lives in the
separate predictor pipeline, emits a flat forecast at the historical mean of
its (nonempty) records with confidence exactly 60 at every step. -/
theorem C1_zero_success_emits_zero
    (fitA fitS fitE : List ℚ → ℕ → Except String (List ℚ))
    (values : List ℚ) (n : ℕ) (r : String × ℚ) (rs : List (String × ℚ))
    (h : values.length < 8) :
    (ensemble_forecast fitA fitS fitE values n).ensemble_forecasts
        = List.replicate n 0
    ∧ (ensemble_forecast fitA fitS fitE values n).arima_contributed = false
    ∧ (ensemble_forecast fitA fitS fitE values n).sarima_contributed = false
    ∧ (ensemble_forecast fitA fitS fitE values n).exp_contributed = false
    ∧ (generate_baseline_predictions n (r :: rs)).map Pred.value
        = List.replicate n
            (((r :: rs).map Prod.snd).sum / (((r :: rs).length : ℕ) : ℚ))
    ∧ (generate_baseline_predictions n (r :: rs)).map Pred.confidence
        = List.replicate n 60 := by
  obtain ⟨hA, hS, hE⟩ := strategies_all_fail fitA fitS fitE values n h
  refine ⟨?_, ?_, ?_, ?_, baseline_value_nonempty n r rs,
    baseline_conf_replicate n r rs⟩
  · unfold ensemble_forecast
    dsimp only
    rw [hA, hS, hE, List.eq_replicate_iff]
    refine ⟨by simp, ?_⟩
    intro b hb
    rcases List.mem_map.mp hb with ⟨j, _, hj⟩
    rw [← hj, ensemble_step_all_error]
  · unfold ensemble_forecast
    dsimp only
    rw [hA]
    rfl
  · unfold ensemble_forecast
    dsimp only
    rw [hS]
    rfl
  · unfold ensemble_forecast
    dsimp only
    rw [hE]
    rfl

/-- Witness for C1 at a length-1 series `[100]` with records
`[("2024Q1", 100)]`. -/
theorem C1_witness :
    ([(100 : ℚ)].length < 8)
    ∧ (ensemble_forecast trivialFit trivialFit trivialFit [(100 : ℚ)] 4).ensemble_forecasts
        = List.replicate 4 0 :=
  ⟨by decide,
   (C1_zero_success_emits_zero trivialFit trivialFit trivialFit [(100 : ℚ)] 4
      ("2024Q1", 100) [] (by decide)).1⟩

/-- C1 counterexample: for the length-1 series `[100]` (records
`[("2024Q1", 100)]`) every strategy fails, yet the ensemble emits `0.0` at
every step while the BaselineEstimator output is the historical mean `100` —
the emitted step value does not equal the baseline value, refuting the claim
as stated. -/
theorem C1_cex :
    (ensemble_forecast trivialFit trivialFit trivialFit [(100 : ℚ)] 4).ensemble_forecasts
        = [0, 0, 0, 0]
    ∧ (generate_baseline_predictions 4 [("2024Q1", (100 : ℚ))]).map Pred.value
        = [100, 100, 100, 100]
    ∧ (0 : ℚ) ≠ 100 := by
  refine ⟨by decide, ?_, by norm_num⟩
  simp [generate_baseline_predictions, str_max, List.range_succ]

/-- C3 (corrected): for every model-based forecast the confidence at
1-indexed step `i` is `max(50, 85 − 5·i)` — hence non-increasing in `i` and
never below 50 — and every baseline forecast built from a *nonempty* record
list has confidence exactly 60 at every step.  (With an empty record list
the baseline confidence is 50, not 60; see the counterexample.) -/
theorem C3_confidence_schedule {F : Type} (model : F → Except String ℚ)
    (cur : CursorRow F) (records : List (String × ℚ)) (n i : ℕ)
    (r : String × ℚ) (rs : List (String × ℚ))
    (h1 : 1 ≤ i) (h2 : i ≤ n) :
    generate_time_series_predictions (some model) records cur n
        = gtsp_go model cur n 1
    ∧ ((gtsp_go model cur n 1).getD (i - 1) predDefault).confidence
        = max 50 (85 - 5 * (i : ℤ))
    ∧ (i < n →
        ((gtsp_go model cur n 1).getD i predDefault).confidence
          ≤ ((gtsp_go model cur n 1).getD (i - 1) predDefault).confidence)
    ∧ 50 ≤ ((gtsp_go model cur n 1).getD (i - 1) predDefault).confidence
    ∧ ∀ p ∈ generate_baseline_predictions n (r :: rs), p.confidence = 60 := by
  have hconf1 : ((gtsp_go model cur n 1).getD (i - 1) predDefault).confidence
      = max 50 (85 - 5 * (i : ℤ)) := by
    rw [gtsp_go_conf model n cur 1 (i - 1) (by omega)]
    congr 1
    push_cast
    omega
  refine ⟨rfl, hconf1, ?_, ?_, baseline_conf_nonempty n r rs⟩
  · intro hin
    rw [hconf1, gtsp_go_conf model n cur 1 i hin]
    apply max_le_max (le_refl 50)
    omega
  · rw [hconf1]
    exact le_max_left 50 _

/-- Witness for C3 at `n = 4`, `i = 2`: confidence of the second step is
`max(50, 85 − 10) = 75`. -/
theorem C3_witness :
    ((1 : ℕ) ≤ 2 ∧ (2 : ℕ) ≤ 4)
    ∧ ((gtsp_go (fun _ => Except.ok (1 : ℚ))
          (⟨"2024Q1", (0 : ℚ), ()⟩ : CursorRow Unit) 4 1).getD (2 - 1) predDefault).confidence
        = max 50 (85 - 5 * ((2 : ℕ) : ℤ)) :=
  ⟨⟨by decide, by decide⟩,
   (C3_confidence_schedule (fun _ => Except.ok (1 : ℚ))
      (⟨"2024Q1", (0 : ℚ), ()⟩ : CursorRow Unit) [] 4 2 ("2024Q1", 5) []
      (by decide) (by decide)).2.1⟩

/-- C3 counterexample: the baseline forecast built from an *empty* record
list has confidence 50 at every step, not 60 — refuting "equals 60 at every
step" for every baseline-only forecast. -/
theorem C3_cex :
    (generate_baseline_predictions 4 ([] : List (String × ℚ))).map Pred.confidence
        = [50, 50, 50, 50]
    ∧ (50 : ℤ) ≠ 60 := by
  exact ⟨by decide, by decide⟩

/-- C5 (corrected): each strategy applied to a series shorter than its
minimum (10 for ARIMA, 20 for SARIMA, 8 for exponential smoothing) returns
the corresponding insufficient-data error dictionary, and an exception
raised by the library fit is converted to an error dictionary carrying its
message — the strategies are total functions and never propagate an
exception.  (Non-finite *output* however is not detected: see the
counterexample.) -/
theorem C5_guards_and_exceptions {α : Type}
    (fitA fitS fitE : List α → ℕ → Except String (List α))
    (values : List α) (h : ℕ) :
    (values.length < 10 → arima_forecast fitA values h
        = .error "Insufficient data for ARIMA (minimum 10 observations)")
    ∧ (values.length < 20 → sarima_forecast fitS values h
        = .error "Insufficient data for SARIMA (minimum 20 observations)")
    ∧ (values.length < 8 → exponential_smoothing_forecast fitE values h
        = .error "Insufficient data for Exponential Smoothing")
    ∧ (∀ e, fitA values h = .error e → 10 ≤ values.length →
        arima_forecast fitA values h = .error e)
    ∧ (∀ e, fitS values h = .error e → 20 ≤ values.length →
        sarima_forecast fitS values h = .error e)
    ∧ (∀ e, fitE values h = .error e → 8 ≤ values.length →
        exponential_smoothing_forecast fitE values h = .error e) := by
  refine ⟨?_, ?_, ?_, ?_, ?_, ?_⟩
  · intro hl
    rw [arima_forecast, if_pos hl]
  · intro hl
    rw [sarima_forecast, if_pos hl]
  · intro hl
    rw [exponential_smoothing_forecast, if_pos hl]
  · intro e he hl
    rw [arima_forecast, if_neg (by omega), he]
  · intro e he hl
    rw [sarima_forecast, if_neg (by omega), he]
  · intro e he hl
    rw [exponential_smoothing_forecast, if_neg (by omega), he]

/-- Witness for C5: a 1-point series makes all three strategies return their
insufficient-data errors, and a raising fit on a 10-point series becomes an
error dictionary with the exception's message. -/
theorem C5_witness :
    arima_forecast (failFit : List ℚ → ℕ → Except String (List ℚ)) [(1 : ℚ)] 4
        = .error "Insufficient data for ARIMA (minimum 10 observations)"
    ∧ sarima_forecast (failFit : List ℚ → ℕ → Except String (List ℚ)) [(1 : ℚ)] 4
        = .error "Insufficient data for SARIMA (minimum 20 observations)"
    ∧ exponential_smoothing_forecast
        (failFit : List ℚ → ℕ → Except String (List ℚ)) [(1 : ℚ)] 4
        = .error "Insufficient data for Exponential Smoothing"
    ∧ arima_forecast (failFit : List ℚ → ℕ → Except String (List ℚ))
        (List.replicate 10 (1 : ℚ)) 4 = .error "convergence failure" :=
  ⟨(C5_guards_and_exceptions failFit failFit failFit [(1 : ℚ)] 4).1 (by decide),
   (C5_guards_and_exceptions failFit failFit failFit [(1 : ℚ)] 4).2.1 (by decide),
   (C5_guards_and_exceptions failFit failFit failFit [(1 : ℚ)] 4).2.2.1 (by decide),
   (C5_guards_and_exceptions failFit failFit failFit
      (List.replicate 10 (1 : ℚ)) 4).2.2.2.1 "convergence failure" rfl (by decide)⟩

/-- C5 counterexample: a fit whose forecast values are all non-finite
(modelled `none`) on a 10-point series yields a *success* result carrying
the non-finite values — the code performs no finiteness check, so
"non-finite output becomes success=false" fails. -/
theorem C5_cex :
    (arima_forecast nanFit (List.replicate 10 (some (1 : ℚ))) 4).success = true
    ∧ (none : Option ℚ) ∈
        (arima_forecast nanFit (List.replicate 10 (some (1 : ℚ))) 4).points := by
  exact ⟨by decide, by decide⟩

/-- C10 (confirmed): for a quarter `(year, q)` with `q ∈ 1..4` and any step
count `n ≥ 1`, `_get_next_quarter`'s arithmetic returns the quarter exactly
`n` quarters later: the quarter component stays in `1..4`, the linear
quarter index advances by exactly `n` (so e.g. one step from any `Q4` is
`Q1` of the next year), and stepping once `n` times equals stepping by `n`. -/
theorem C10_next_quarter_step (year quarter : ℤ) (steps : ℕ)
    (h1 : 1 ≤ quarter) (h4 : quarter ≤ 4) (hs : 1 ≤ steps) :
    (1 ≤ (get_next_quarter_core year quarter steps).2
      ∧ (get_next_quarter_core year quarter steps).2 ≤ 4)
    ∧ (get_next_quarter_core year quarter steps).1 * 4
        + ((get_next_quarter_core year quarter steps).2 - 1)
        = year * 4 + (quarter - 1) + (steps : ℤ)
    ∧ quarter_step_one^[steps] (year, quarter)
        = get_next_quarter_core year quarter steps
    ∧ get_next_quarter_core year 4 1 = (year + 1, 1) := by
  obtain ⟨hq1, hq4, hchar⟩ := get_next_quarter_core_charac year quarter steps
  refine ⟨⟨hq1, hq4⟩, hchar, quarter_step_iterate steps year quarter h1 h4, ?_⟩
  obtain ⟨hm0, hm4, hdm⟩ := emod4_facts (year * 4 + 4 - 1 + ((1 : ℕ) : ℤ))
  unfold get_next_quarter_core
  dsimp only
  rw [Prod.mk.injEq]
  push_cast at hm0 hm4 hdm ⊢
  constructor <;> omega

/-- Witness for C10: one step from `2024Q4` is `2025Q1`. -/
theorem C10_witness :
    ((1 : ℤ) ≤ 4 ∧ (4 : ℤ) ≤ 4 ∧ (1 : ℕ) ≤ 1)
    ∧ quarter_step_one^[1] ((2024 : ℤ), (4 : ℤ)) = get_next_quarter_core 2024 4 1
    ∧ get_next_quarter_core 2024 4 1 = (2025, 1) :=
  ⟨⟨by decide, by decide, by decide⟩,
   (C10_next_quarter_step 2024 4 1 (by decide) (by decide) (by decide)).2.2.1,
   by
    have h := (C10_next_quarter_step 2024 4 1 (by decide) (by decide) (by decide)).2.2.2
    simpa using h⟩

/-- C2 (confirmed): each ensemble point is tied to the per-step combiner,
and the combiner's output equals the weighted mean of the point estimates of
the strategies that succeeded (weights ARIMA 0.3, SARIMA 0.4, smoothing 0.3)
divided by the sum of the weights actually used; in particular when exactly
one strategy succeeds the ensemble point equals that strategy's point. -/
theorem C2_weighted_mean (fitA fitS fitE : List ℚ → ℕ → Except String (List ℚ))
    (values : List ℚ) (n j : ℕ) (ar sa ex : StratResult ℚ) (i : ℕ)
    (hj : j < n) :
    ((ensemble_forecast fitA fitS fitE values n).ensemble_forecasts.getD j 0
      = ensemble_step (arima_forecast fitA values n) (sarima_forecast fitS values n)
          (exponential_smoothing_forecast fitE values n) j)
    ∧ (step_successes ar sa ex i ≠ [] →
        ensemble_step ar sa ex i
          = ((step_successes ar sa ex i).map (fun p => p.1 * p.2)).sum
              / ((step_successes ar sa ex i).map Prod.snd).sum)
    ∧ (ar.success = true → sa.success = false → ex.success = false →
        ensemble_step ar sa ex i = ar.points.getD i 0)
    ∧ (ar.success = false → sa.success = true → ex.success = false →
        ensemble_step ar sa ex i = sa.points.getD i 0)
    ∧ (ar.success = false → sa.success = false → ex.success = true →
        ensemble_step ar sa ex i = ex.points.getD i 0) := by
  refine ⟨?_, ?_, ?_, ?_, ?_⟩
  · unfold ensemble_forecast
    dsimp only
    rw [getD_map_range _ _ _ _ hj]
  · intro hne
    rcases ar with aVs | aMsg <;> rcases sa with sVs | sMsg <;>
      rcases ex with eVs | eMsg <;>
      simp [ensemble_step, step_successes] at hne ⊢
  · intro hA hS hE
    rcases ar with aVs | aMsg <;> rcases sa with sVs | sMsg <;>
      rcases ex with eVs | eMsg <;>
      simp [StratResult.success] at hA hS hE <;>
      simp [ensemble_step, StratResult.points]
    rw [mul_div_assoc]
    norm_num
  · intro hA hS hE
    rcases ar with aVs | aMsg <;> rcases sa with sVs | sMsg <;>
      rcases ex with eVs | eMsg <;>
      simp [StratResult.success] at hA hS hE <;>
      simp [ensemble_step, StratResult.points]
    rw [mul_div_assoc]
    norm_num
  · intro hA hS hE
    rcases ar with aVs | aMsg <;> rcases sa with sVs | sMsg <;>
      rcases ex with eVs | eMsg <;>
      simp [StratResult.success] at hA hS hE <;>
      simp [ensemble_step, StratResult.points]
    rw [mul_div_assoc]
    norm_num

/-- Witness for C2: with only ARIMA succeeding (point 10 at step 0) the
ensemble point is exactly 10. -/
theorem C2_witness :
    ensemble_step (StratResult.ok [(10 : ℚ)]) (StratResult.error "e1")
        (StratResult.error "e2") 0
      = (StratResult.ok [(10 : ℚ)]).points.getD 0 0 :=
  (C2_weighted_mean trivialFit trivialFit trivialFit [] 4 0
    (StratResult.ok [(10 : ℚ)]) (StratResult.error "e1")
    (StratResult.error "e2") 0 (by decide)).2.2.1 rfl rfl rfl

/-- C4 (corrected): both series builders deduplicate by quarter token *keep
last*, and in `prepare_time_series` this dedup runs *before* the
groupby-sum, so two records with the same token — `(2024Q4,50)` and
`(2024Q4,70)` — yield the single observation 70 in both builders (never the
sum 120); the built series have no duplicate keys and are sorted ascending
(strictly by date for the summed builder; non-strictly by date, with
duplicate tokens removed, for the keep-last builder). -/
theorem C4_duplicate_aggregation (data : List (String × ℚ)) :
    ((prepare_time_series data).map Prod.fst).Pairwise (fun a b => dlt a b = true)
    ∧ ((prepare_time_series data).map Prod.fst).Nodup
    ∧ ((prepare_time_series_data data).map Prod.fst).Nodup
    ∧ (prepare_time_series_data data).Pairwise
        (fun a b => dlt (quarter_date b.1) (quarter_date a.1) = false)
    ∧ prepare_time_series [("2024Q4", (50 : ℚ)), ("2024Q4", 70)] = [((2024, 4), 70)]
    ∧ prepare_time_series_data [("2024Q4", (50 : ℚ)), ("2024Q4", 70)]
        = [("2024Q4", 70)] := by
  refine ⟨?_, ?_, ?_, ?_, ?_, by decide⟩
  · exact group_sum_by_keys_pairwise _ _ _
  · refine (group_sum_by_keys_pairwise _ _ _).imp ?_
    intro a b hab hEq
    rw [hEq, dlt_irrefl] at hab
    exact Bool.false_ne_true hab
  · exact keepLastBy_keys_nodup _ _
  · exact List.Pairwise.sublist (keepLastBy_sublist _ _)
      (stableSortD_pairwise (fun r => quarter_date r.1) data)
  · have h1 : quarter_date "2024Q4" = (2024, 4) := by decide
    simp [prepare_time_series, stableSortD, sInsertD, keepLastBy, group_sum_by,
      sorted_unique_keys, insertKeyD, h1, dlt]

/-- C4 counterexample: under the summing builder the duplicate batch
`[(2024Q4,50),(2024Q4,70)]` produces the single observation 70, not the
claimed sum 120 — `drop_duplicates(keep='last')` runs before the
groupby-sum. -/
theorem C4_cex :
    prepare_time_series [("2024Q4", (50 : ℚ)), ("2024Q4", 70)] = [((2024, 4), 70)]
    ∧ prepare_time_series [("2024Q4", (50 : ℚ)), ("2024Q4", 70)]
        ≠ [((2024, 4), 120)] := by
  have h1 : quarter_date "2024Q4" = (2024, 4) := by decide
  have h : prepare_time_series [("2024Q4", (50 : ℚ)), ("2024Q4", 70)]
      = [((2024, 4), 70)] := by
    simp [prepare_time_series, stableSortD, sInsertD, keepLastBy, group_sum_by,
      sorted_unique_keys, insertKeyD, h1, dlt]
  refine ⟨h, ?_⟩
  rw [h]
  intro hc
  simp [Prod.ext_iff] at hc

/-- C6 (corrected): a record whose quarter token does not parse is *not*
dropped — `_parse_quarter`'s `except:` clause assigns it the fallback date
`datetime(2024,1,1)`, i.e. the key of `2024Q1`, so the record is retained
and aggregated into the 2024Q1 bucket together with genuine 2024Q1 records;
a record whose token does parse is always assigned exactly the key its
token encodes. -/
theorem C6_unparseable_not_dropped (t : String) (v w : ℚ)
    (hp : quarter_parses t = false) :
    quarter_date t = (2024, 1)
    ∧ prepare_time_series [(t, v), ("2024Q1", w)] = [((2024, 1), v + w)]
    ∧ ∀ s yq, parse_quarter? s = some yq → quarter_date s = yq := by
  have hqt : quarter_date t = (2024, 1) := quarter_date_of_not_parses hp
  have hq1 : quarter_date "2024Q1" = (2024, 1) := by decide
  have ht : t ≠ "2024Q1" := by
    intro h
    rw [h] at hp
    exact absurd hp (by decide)
  have ht2 : (("2024Q1" : String) == t) = false := by
    simp only [beq_eq_false_iff_ne]
    exact Ne.symm ht
  refine ⟨hqt, ?_, fun s yq h => quarter_date_of_parses h⟩
  simp [prepare_time_series, stableSortD, sInsertD, keepLastBy, group_sum_by,
    sorted_unique_keys, insertKeyD, hqt, hq1, ht2, dlt]

/-- Witness for C6 at the unparseable token `"garbage"`. -/
theorem C6_witness :
    quarter_parses "garbage" = false
    ∧ (quarter_date "garbage" = (2024, 1)
      ∧ prepare_time_series [("garbage", (50 : ℚ)), ("2024Q1", 30)]
          = [((2024, 1), 50 + 30)]
      ∧ ∀ s yq, parse_quarter? s = some yq → quarter_date s = yq) :=
  ⟨by decide, C6_unparseable_not_dropped "garbage" 50 30 (by decide)⟩

/-- C6 counterexample: with the batch `[("garbage",50), ("2024Q1",30)]` the
built series is `[(2024Q1, 80)]` — the unparseable record is not dropped
(the claim's reading would give `[(2024Q1, 30)]`), and the genuine 2024Q1
record is corrupted by the merge. -/
theorem C6_cex :
    prepare_time_series [("garbage", (50 : ℚ)), ("2024Q1", 30)] = [((2024, 1), 80)]
    ∧ prepare_time_series [("garbage", (50 : ℚ)), ("2024Q1", 30)]
        ≠ [((2024, 1), 30)] := by
  have h1 : quarter_date "garbage" = (2024, 1) := by decide
  have h2 : quarter_date "2024Q1" = (2024, 1) := by decide
  have h3 : (("2024Q1" : String) == "garbage") = false := by decide
  have h : prepare_time_series [("garbage", (50 : ℚ)), ("2024Q1", 30)]
      = [((2024, 1), 80)] := by
    simp [prepare_time_series, stableSortD, sInsertD, keepLastBy, group_sum_by,
      sorted_unique_keys, insertKeyD, h1, h2, h3, dlt]
    norm_num
  refine ⟨h, ?_⟩
  rw [h]
  intro hc
  simp [Prod.ext_iff] at hc

/-- C7 (confirmed): every point of the recursive export/import forecast loop
is floored at 0 (both the success branch, via `max(0, ·)`, and the
exception fallback, which propagates the nonnegative cursor value), while
`predict_trade_balance` emits the exact difference export − import with no
clipping (labelled "deficit" exactly when negative) and the basic statistics
report the true min/max/mean of a series, preserving negative values. -/
theorem C7_floor_and_balance {F : Type} (model : F → Except String ℚ)
    (records : List (String × ℚ)) (cur : CursorRow F) (n j : ℕ)
    (eps ips : List Pred) (v x : ℚ) (vs : List ℚ)
    (hcur : 0 ≤ cur.value) (hj : j < min eps.length ips.length)
    (hx : x ∈ v :: vs) :
    (∀ p ∈ generate_time_series_predictions (some model) records cur n,
        0 ≤ p.value)
    ∧ ((predict_trade_balance eps ips).getD j balDefault).predicted_balance
        = (eps.getD j predDefault).value - (ips.getD j predDefault).value
    ∧ (((predict_trade_balance eps ips).getD j balDefault).balance_type
          = "deficit"
        ↔ (eps.getD j predDefault).value - (ips.getD j predDefault).value < 0)
    ∧ ∃ st, basic_statistics (v :: vs) = some st ∧ st.min ≤ x ∧ x ≤ st.max
        ∧ st.mean = (v :: vs).sum / (((v :: vs).length : ℕ) : ℚ) := by
  have hgetd : (predict_trade_balance eps ips).getD j balDefault
      = ({ quarter := (eps.getD j predDefault).quarter
           predicted_balance := (eps.getD j predDefault).value
             - (ips.getD j predDefault).value
           predicted_export := (eps.getD j predDefault).value
           predicted_import := (ips.getD j predDefault).value
           balance_type := if 0 ≤ (eps.getD j predDefault).value
               - (ips.getD j predDefault).value then "surplus" else "deficit"
           confidence := min (eps.getD j predDefault).confidence
             (ips.getD j predDefault).confidence } : BalPred) := by
    unfold predict_trade_balance
    rw [getD_map_range _ _ _ _ hj]
  refine ⟨?_, ?_, ?_, ?_⟩
  · exact gtsp_go_nonneg model n cur 1 hcur
  · rw [hgetd]
  · rw [hgetd]
    dsimp only
    by_cases hb : 0 ≤ (eps.getD j predDefault).value - (ips.getD j predDefault).value
    · rw [if_pos hb]
      constructor
      · intro hc
        exact absurd hc (by decide)
      · intro hc
        exact absurd hc (not_lt.mpr hb)
    · rw [if_neg hb]
      constructor
      · intro _
        exact lt_of_not_ge hb
      · intro _
        rfl
  · refine ⟨_, rfl, foldl_min_le_mem vs v x hx, mem_le_foldl_max vs v x hx, rfl⟩

/-- Witness for C7 on concrete data: a model predicting −5 from a cursor at
3 still emits only nonnegative points; a (10, 30) prediction pair gives
balance −20, labelled deficit; the statistics of `[-5, 10]` keep `-5`. -/
theorem C7_witness :
    (0 ≤ ((⟨"2024Q4", (3 : ℚ), ()⟩ : CursorRow Unit)).value
      ∧ 0 < min [(⟨"2025Q1", (10 : ℚ), 80⟩ : Pred)].length
          [(⟨"2025Q1", (30 : ℚ), 80⟩ : Pred)].length
      ∧ (-5 : ℚ) ∈ [(-5 : ℚ), 10])
    ∧ (∀ p ∈ generate_time_series_predictions
          (some (fun _ => Except.ok (-5 : ℚ))) []
          (⟨"2024Q4", (3 : ℚ), ()⟩ : CursorRow Unit) 4, 0 ≤ p.value)
    ∧ ((predict_trade_balance [(⟨"2025Q1", (10 : ℚ), 80⟩ : Pred)]
          [(⟨"2025Q1", (30 : ℚ), 80⟩ : Pred)]).getD 0 balDefault).predicted_balance
        = ([(⟨"2025Q1", (10 : ℚ), 80⟩ : Pred)].getD 0 predDefault).value
          - ([(⟨"2025Q1", (30 : ℚ), 80⟩ : Pred)].getD 0 predDefault).value := by
  have h := C7_floor_and_balance (fun _ => Except.ok (-5 : ℚ)) []
    (⟨"2024Q4", (3 : ℚ), ()⟩ : CursorRow Unit) 4 0
    [(⟨"2025Q1", (10 : ℚ), 80⟩ : Pred)] [(⟨"2025Q1", (30 : ℚ), 80⟩ : Pred)]
    (-5 : ℚ) (-5 : ℚ) [(10 : ℚ)] (by norm_num) (by decide) (by norm_num)
  exact ⟨⟨by norm_num, by decide, by norm_num⟩, h.1, h.2.1⟩

/-- C8 (confirmed): with at least 2 points, `_analyze_trend` reports the OLS
slope with direction "increasing" iff the slope is positive (otherwise
"decreasing") and significance iff the two-sided p-value is below 0.05;
with fewer than 2 points it reports the insufficient-data error instead of
fabricating a slope. -/
theorem C8_trend_direction (p : ℚ) (ys : List ℚ) :
    (2 ≤ ys.length →
      ∃ dir sig, analyze_trend p ys = TrendResult.ok (ols_slope ys) dir sig
        ∧ (dir = "increasing" ↔ 0 < ols_slope ys)
        ∧ (dir = "decreasing" ↔ ¬ 0 < ols_slope ys)
        ∧ (sig = true ↔ p < (0.05 : ℚ)))
    ∧ (ys.length < 2 →
        analyze_trend p ys
          = TrendResult.error "Insufficient data for trend analysis") := by
  constructor
  · intro h
    rw [analyze_trend, if_pos (by omega)]
    refine ⟨_, _, rfl, ?_, ?_, ?_⟩
    · by_cases h0 : 0 < ols_slope ys
      · rw [if_pos h0]
        exact ⟨fun _ => h0, fun _ => rfl⟩
      · rw [if_neg h0]
        exact ⟨fun hc => absurd hc (by decide), fun hc => absurd h0 (by tauto)⟩
    · by_cases h0 : 0 < ols_slope ys
      · rw [if_pos h0]
        exact ⟨fun hc => absurd hc (by decide), fun hc => absurd h0 (by tauto)⟩
      · rw [if_neg h0]
        exact ⟨fun _ => h0, fun _ => rfl⟩
    · exact decide_eq_true_iff
  · intro h
    rw [analyze_trend, if_neg (by omega)]

/-- Witness for C8 at `[1, 3]` with p-value 0.01. -/
theorem C8_witness :
    (2 ≤ [(1 : ℚ), 3].length)
    ∧ ∃ dir sig, analyze_trend (1 / 100) [(1 : ℚ), 3]
          = TrendResult.ok (ols_slope [(1 : ℚ), 3]) dir sig
        ∧ (dir = "increasing" ↔ 0 < ols_slope [(1 : ℚ), 3])
        ∧ (dir = "decreasing" ↔ ¬ 0 < ols_slope [(1 : ℚ), 3])
        ∧ (sig = true ↔ (1 / 100 : ℚ) < (0.05 : ℚ)) :=
  ⟨by decide, (C8_trend_direction (1 / 100) [(1 : ℚ), 3]).1 (by decide)⟩

/-- C9 (corrected): the volatility percent-change series has an entry for
*every* consecutive pair (`i ≥ 1`), with nothing skipped — a zero
predecessor produces a non-finite entry rather than being dropped; only
when every predecessor is nonzero does the series coincide with the
spec's skipped version, and then the statistics are reported over it. -/
theorem C9_volatility_no_skip (values : List ℚ) (h2 : 2 ≤ values.length) :
    (volatility_returns values).length = values.length - 1
    ∧ (∀ i, i + 1 < values.length →
        (volatility_returns values).getD i (some 0)
          = (if values.getD i 0 = 0 then none
             else some ((values.getD (i + 1) 0 - values.getD i 0)
               / values.getD i 0 * 100)))
    ∧ ((∀ i, i + 1 < values.length → values.getD i 0 ≠ 0) →
        volatility_returns values = (spec_volatility_returns values).map some
        ∧ ∃ st, analyze_volatility values
            = Except.ok (volatility_returns values, some st)) := by
  refine ⟨volatility_returns_length values,
    fun i hi => volatility_returns_getD values i hi, ?_⟩
  intro hall
  have hfin := volatility_returns_all_finite values hall
  refine ⟨hfin, ?_⟩
  have hlen := volatility_returns_length values
  cases hspec : spec_volatility_returns values with
  | nil =>
    rw [hspec] at hfin
    simp only [List.map_nil] at hfin
    rw [hfin] at hlen
    simp at hlen
    omega
  | cons s ss =>
    rw [hspec] at hfin
    unfold analyze_volatility
    rw [hfin]
    simp only [List.map_cons]
    rw [show (some s :: List.map some ss) = (s :: ss).map some from rfl,
      mapM_id_map_some]
    exact ⟨_, rfl⟩

/-- Witness for C9 at the series `[4, 2]` (nonzero predecessor): a single
percent-change entry `(2-4)/4*100 = -50`, nothing skipped. -/
theorem C9_witness :
    (2 ≤ [(4 : ℚ), 2].length)
    ∧ (volatility_returns [(4 : ℚ), 2]).length = [(4 : ℚ), 2].length - 1 :=
  ⟨by decide, (C9_volatility_no_skip [(4 : ℚ), 2] (by decide)).1⟩

/-- C9 counterexample: for the series `[0, 10]` the code's percent-change
series has one (non-finite) entry for the zero-predecessor pair — the pair
is *not* skipped, so the code's series differs from the spec's skipped
series. -/
theorem C9_cex :
    volatility_returns [(0 : ℚ), 10] = [none]
    ∧ spec_volatility_returns [(0 : ℚ), 10] = []
    ∧ volatility_returns [(0 : ℚ), 10]
        ≠ (spec_volatility_returns [(0 : ℚ), 10]).map some := by
  refine ⟨by decide, by decide, ?_⟩
  have h1 : volatility_returns [(0 : ℚ), 10] = [none] := by decide
  have h2 : spec_volatility_returns [(0 : ℚ), 10] = [] := by decide
  rw [h1, h2]
  simp

end RTA
